import Mathlib

/-!
Shallow embedding of the physio-threat-engine scoring core
(`src/backend/model.py`, `src/backend/data_pipeline/normalization.py`,
`src/backend/models/trust_engine.py`, `src/backend/models/anomaly_detector.py`,
`src/backend/schemas.py`).

Numeric values are modelled as rationals (the Python code computes with
IEEE doubles; the algorithms are arithmetic, comparisons and clamps, which
we model exactly over ℚ).  Missing values (`NaN` in the pandas frames) are
modelled as `Option ℚ` with `none` for missing.  The federated-trust
comparator needs a Euclidean norm (a square root), so that component is
modelled over ℝ.
-/

/-- The fixed metric set `METRICS` from `model.py`. -/
inductive Metric : Type where
  | sleep_hours
  | resting_hr
  | hrv
  | steps
  | calories
  | weight
deriving DecidableEq, Repr, Fintype

/-- `METRICS = ["sleep_hours", "resting_hr", "hrv", "steps", "calories", "weight"]`. -/
def METRICS : List Metric :=
  [Metric.sleep_hours, Metric.resting_hr, Metric.hrv, Metric.steps,
   Metric.calories, Metric.weight]

/-- One daily record (`HealthRecordIn` without the plumbing fields): a date,
a user id and one optional value per metric (`None`/`NaN` = missing). -/
structure Record where
  user_id : String
  date : Nat
  sleep_hours : Option ℚ
  resting_hr : Option ℚ
  hrv : Option ℚ
  steps : Option ℚ
  calories : Option ℚ
  weight : Option ℚ
deriving DecidableEq, Repr

/-- Column access `row[m]`. -/
def Record.get (r : Record) : Metric → Option ℚ
  | Metric.sleep_hours => r.sleep_hours
  | Metric.resting_hr => r.resting_hr
  | Metric.hrv => r.hrv
  | Metric.steps => r.steps
  | Metric.calories => r.calories
  | Metric.weight => r.weight

/-- Column assignment `row[m] = v`. -/
def Record.set (r : Record) (m : Metric) (v : Option ℚ) : Record :=
  match m with
  | Metric.sleep_hours => { r with sleep_hours := v }
  | Metric.resting_hr => { r with resting_hr := v }
  | Metric.hrv => { r with hrv := v }
  | Metric.steps => { r with steps := v }
  | Metric.calories => { r with calories := v }
  | Metric.weight => { r with weight := v }

/-- A user's series: records ordered ascending by date. -/
abbrev Series : Type := List Record

/-- The column `df[m]` of a series, missing values as `none`. -/
def column (df : Series) (m : Metric) : List (Option ℚ) :=
  df.map (fun r => r.get m)

/-- The epsilon floor `1e-6` used by `_mad`. -/
def madEps : ℚ := 1 / 1000000

/-- Insert `x` into a sorted list, keeping it sorted (ascending). -/
def insertQ (x : ℚ) : List ℚ → List ℚ
  | [] => [x]
  | y :: ys => if Rat.blt y x then y :: insertQ x ys else x :: y :: ys

/-- Insertion sort on rationals (ascending). -/
def sortQ : List ℚ → List ℚ
  | [] => []
  | x :: xs => insertQ x (sortQ xs)

/-- Interpolated median of a list of rationals, as `numpy.median` /
`pandas.Series.median` compute it on the non-missing values: sort, middle
element for odd length, average of the two middle elements for even length.
Returns `0` on the empty list (callers guard emptiness). -/
def medianQ (xs : List ℚ) : ℚ :=
  let s := sortQ xs
  let n := s.length
  if n = 0 then 0
  else if n % 2 = 1 then s.getD (n / 2) 0
  else (s.getD (n / 2 - 1) 0 + s.getD (n / 2) 0) / 2

/-- `int(x)` on a rational: truncation toward zero, as Python's `int()`. -/
def intTrunc (q : ℚ) : Int := q.num.tdiv q.den

/-- `_mad` from `normalization.py` / `model.py` applied to a fully observed
list of values: median absolute deviation about the median, floored at
`1e-6` (`mad if mad > 1e-6 else 1e-6`).  On an empty input the Python code
produces `NaN` medians and the `NaN > 1e-6` comparison is false, so the
floor `1e-6` is returned; we reproduce that case explicitly. -/
def madFloored (xs : List ℚ) : ℚ :=
  if xs.isEmpty then madEps
  else
    let md := medianQ xs
    let v := medianQ (xs.map (fun x => |x - md|))
    if v > madEps then v else madEps

/-- `max(5, window // 2)`: the `min_periods` of the rolling baselines. -/
def minPeriods (window : Nat) : Nat := max 5 (window / 2)

/-- The trailing window of raw (possibly missing) column entries that the
pandas rolling computation sees at row `i`: entries `max 0 (i+1-window)`
through `i`. -/
def rollingWindow (window : Nat) (col : List (Option ℚ)) (i : Nat) :
    List (Option ℚ) :=
  (col.take (i + 1)).drop (i + 1 - window)

/-- `col.rolling(window, min_periods).median()` at row `i`: the median of the
non-missing entries of the window, provided at least `min_periods` of them
are present (pandas' rolling median skips `NaN`). -/
def rollingMedian (window : Nat) (col : List (Option ℚ)) (i : Nat) :
    Option ℚ :=
  let w := rollingWindow window col i
  let obs := w.filterMap id
  if minPeriods window ≤ obs.length then some (medianQ obs) else none

/-- `col.rolling(window, min_periods).apply(_mad)` at row `i`.  The window
passed to `_mad` contains the raw entries including `NaN`s.  Inside `_mad`,
`series.median()` skips `NaN`, but `np.median(np.abs(series - median))`
propagates any `NaN` in the window, and `NaN > 1e-6` is false, so a window
containing any missing entry yields exactly the floor `1e-6`; a fully
observed window yields the floored MAD of its values. -/
def rollingMad (window : Nat) (col : List (Option ℚ)) (i : Nat) : Option ℚ :=
  let w := rollingWindow window col i
  let obs := w.filterMap id
  if minPeriods window ≤ obs.length then
    some (if w.any (fun o => o.isNone) then madEps else madFloored obs)
  else none

/-- The `{m}_median` column after the `.shift(1)`: row `0` is absent, row
`i+1` holds the rolling median evaluated at row `i`. -/
def baselineMedian (window : Nat) (col : List (Option ℚ)) :
    Nat → Option ℚ
  | 0 => none
  | i + 1 => rollingMedian window col i

/-- The `{m}_mad` column after the `.shift(1)`. -/
def baselineMad (window : Nat) (col : List (Option ℚ)) :
    Nat → Option ℚ
  | 0 => none
  | i + 1 => rollingMad window col i

/-- `build_robust_baseline(df, window)`: the pair of baseline columns
(`{m}_median`, `{m}_mad`) attached to the frame, read off at metric `m`,
row `d`. -/
def build_robust_baseline (df : Series) (window : Nat) (m : Metric)
    (d : Nat) : Option ℚ × Option ℚ :=
  (baselineMedian window (column df m) d, baselineMad window (column df m) d)

/-- One element of the flat trust list returned by `compute_trust_scores`. -/
structure TrustEntry where
  metric : Metric
  date : Nat
  score : ℚ
  drivers : List String
deriving DecidableEq, Repr

/-- The per-metric linear predictor weights (`predictor_weights[m][o]`).
The source fits them once per series by solving the linear system
`corr[others, others] · w = corr[others, m]` with `np.linalg.solve` over the
Pearson correlation matrix (floating-point LAPACK, with an all-zero
fallback when the solve raises).  We model the fitted weights as an
explicit parameter; the theorems below quantify over every weighting, so
they cover the weights the solve produces. -/
def PredictorWeights : Type := Metric → Metric → ℚ

/-- The all-zero fallback weights (`{o: 0.0 for o in others}`). -/
def zeroWeights : PredictorWeights := fun _ _ => 0

/-- The robust-z constant `1.4826`. -/
def zScale : ℚ := 14826 / 10000

/-- `overall_mad = _mad(df[m].dropna())`: the metric's whole-series MAD,
computed once from the non-missing values of the column (not rolling). -/
def overallMad (df : Series) (m : Metric) : ℚ :=
  madFloored ((column df m).filterMap id)

/-- `others = [o for o in METRICS if o != m]`. -/
def otherMetrics (m : Metric) : List Metric :=
  METRICS.filter (fun o => o != m)

/-- `predicted = sum(predictor_weights[m][o] * preds[i] ...)` where missing
inputs contribute `0.0`. -/
def predictedValue (w : PredictorWeights) (row : Record) (m : Metric) : ℚ :=
  ((otherMetrics m).map (fun o => w m o * ((row.get o).getD 0))).sum

/-- The distribution-shift factor for a non-missing value at row `i`:
`z = (val - median) / (1.4826 * mad)` when the baseline pair is present,
else `z = 0`; then `dist_score = max(0, 1 - min(|z|/3, 1))`. -/
def distScore (df : Series) (i : Nat) (m : Metric) (val : ℚ) : ℚ :=
  let z : ℚ :=
    match baselineMedian 14 (column df m) i, baselineMad 14 (column df m) i with
    | some med, some mad => (val - med) / (zScale * mad)
    | _, _ => 0
  max 0 (1 - min (|z| / 3) 1)

/-- The cross-signal factor for a non-missing value:
`residual = |val - predicted|`,
`res_score = max(0, 1 - min(residual / (3 * overall_mad), 1))`. -/
def resScore (w : PredictorWeights) (df : Series) (row : Record) (m : Metric)
    (val : ℚ) : ℚ :=
  max 0 (1 - min (|val - predictedValue w row m| / (3 * overallMad df m)) 1)

/-- The `"distribution shift"` driver string. -/
def distShiftDriver : String := "distribution shift"

/-- The cross-signal driver string appended by the source.  Note: the
character between `cross` and `signal` in the source is U+2011
(a non-breaking hyphen), not the ASCII hyphen-minus. -/
def crossSignalDriver : String := "cross‑signal deviation"

/-- The same words with an ASCII hyphen-minus, for comparison. -/
def crossSignalDriverAscii : String := "cross-signal deviation"

/-- The trust entry `compute_trust_scores` emits for row `row` (at index
`i` of `df`) and metric `m`: score `0` with drivers `["missing"]` when the
value is missing, otherwise the product of the distribution-shift and
cross-signal factors, with a driver appended for each factor below `0.6`. -/
def trustEntryForRow (w : PredictorWeights) (df : Series) (i : Nat)
    (row : Record) (m : Metric) : TrustEntry :=
  match row.get m with
  | none => { metric := m, date := row.date, score := 0, drivers := ["missing"] }
  | some val =>
    let ds := distScore df i m val
    let rs := resScore w df row m val
    { metric := m
      date := row.date
      score := ds * rs
      drivers :=
        (if ds < 3 / 5 then [distShiftDriver] else []) ++
        (if rs < 3 / 5 then [crossSignalDriver] else []) }

/-- Row loop of `compute_trust_scores`: one entry per metric per row, rows
in order, metrics in `METRICS` order within a row. -/
def trustEntriesAux (w : PredictorWeights) (df : Series) :
    Nat → List Record → List TrustEntry
  | _, [] => []
  | i, row :: rest =>
      METRICS.map (trustEntryForRow w df i row) ++ trustEntriesAux w df (i + 1) rest

/-- `compute_trust_scores(df)`: the flat list of trust entries (the second
component of the Python return value; the first component only mirrors the
same scores as extra frame columns). -/
def compute_trust_scores (w : PredictorWeights) (df : Series) :
    List TrustEntry :=
  trustEntriesAux w df 0 df

/-- A driver record of an anomalous metric (`{metric, value, z_score,
direction}`). -/
structure AnomalyDriver where
  metric : Metric
  value : ℚ
  z_score : ℚ
  direction : String
deriving DecidableEq, Repr

/-- One per-day result of `compute_anomalies`.  The `narrative` string of
the source is a deterministic rendering of `date`, `anomaly_score` and the
top two `drivers` (presentation only, involving decimal float formatting);
it is not modelled here and no claim refers to it. -/
structure AnomalyResult where
  user_id : String
  date : Nat
  anomaly_score : ℚ
  is_anomaly : Bool
  drivers : List AnomalyDriver
deriving DecidableEq, Repr

/-- The robust z-score `compute_anomalies` computes for metric `m` at row
`i`, present only when the value, the rolling median and the rolling MAD
are all present (`if pd.isna(val) or pd.isna(med) or pd.isna(mad):
continue`). -/
def dayZ (df : Series) (i : Nat) (row : Record) (m : Metric) : Option ℚ :=
  match row.get m, baselineMedian 14 (column df m) i,
      baselineMad 14 (column df m) i with
  | some val, some med, some mad => some ((val - med) / (zScale * mad))
  | _, _, _ => none

/-- The day's z-scores, in `METRICS` order, one per included metric. -/
def dayZList (df : Series) (i : Nat) (row : Record) : List ℚ :=
  METRICS.filterMap (dayZ df i row)

/-- The day's anomaly drivers: one per included metric with `|z| > 2.0`,
direction `"high"` if `z > 0` else `"low"`. -/
def anomalyDrivers (df : Series) (i : Nat) (row : Record) :
    List AnomalyDriver :=
  METRICS.filterMap (fun m =>
    match row.get m, baselineMedian 14 (column df m) i,
        baselineMad 14 (column df m) i with
    | some val, some med, some mad =>
      let z := (val - med) / (zScale * mad)
      if 2 < |z| then
        some { metric := m, value := val, z_score := z,
               direction := if 0 < z then "high" else "low" }
      else none
    | _, _, _ => none)

/-- Maximum of a list of rationals (`np.max`); `0` on the empty list
(unused there: the caller guards emptiness). -/
def listMax : List ℚ → ℚ
  | [] => 0
  | x :: xs => xs.foldl max x

/-- The per-day anomaly result: score
`mean(|z|) + 0.25 * max(|z|)` over the included metrics, `0` if none
qualified; `is_anomaly = score >= 1.5`. -/
def anomalyResultForRow (df : Series) (i : Nat) (row : Record) :
    AnomalyResult :=
  let zsAbs := (dayZList df i row).map (fun z => |z|)
  let score : ℚ :=
    if zsAbs.isEmpty then 0
    else zsAbs.sum / (zsAbs.length : ℚ) + 1 / 4 * listMax zsAbs
  { user_id := row.user_id
    date := row.date
    anomaly_score := score
    is_anomaly := decide (3 / 2 ≤ score)
    drivers := anomalyDrivers df i row }

/-- Row loop of `compute_anomalies`: one result per row, in order. -/
def anomaliesAux (df : Series) : Nat → List Record → List AnomalyResult
  | _, [] => []
  | i, row :: rest =>
      anomalyResultForRow df i row :: anomaliesAux df (i + 1) rest

/-- `compute_anomalies(df)`. -/
def compute_anomalies (df : Series) : List AnomalyResult :=
  anomaliesAux df 0 df

/-- The abstract random source feeding `simulate_attack`:
`sample m` models `random.sample(range(n_rows), n_vals)` for metric `m`
(distinct in-range day indices), `uniform m idx` the `random.random()`
draw used when spoofing `(m, idx)` (a value in `[0,1)`), and `gauss m idx`
a standard normal draw that the code scales by its sigma. -/
structure Rng where
  sample : Metric → List Nat
  uniform : Metric → Nat → ℚ
  gauss : Metric → Nat → ℚ

/-- `df.at[idx, m]` (read from the original frame). -/
def getVal (df : Series) (idx : Nat) (m : Metric) : Option ℚ :=
  match df.get? idx with
  | some r => r.get m
  | none => none

/-- `perturbed.at[idx, m] = v` (write into the working copy). -/
def setVal (df : Series) (idx : Nat) (m : Metric) (v : Option ℚ) : Series :=
  match df.get? idx with
  | some r => df.set idx (r.set m v)
  | none => df

/-- The body of the inner loop of `simulate_attack` for one selected index:
`missing` blanks the cell; `delay` copies from `max(0, idx-3)` of the
original frame; `spoof` multiplies a present value by `1.5 + random()`;
`noise` adds `Normal(0, 0.1*|val|)` (sigma `0.1` when the value is exactly
`0`); any other mode leaves the cell untouched. -/
def applyAttack (df : Series) (rng : Rng) (mode : String) (m : Metric)
    (acc : Series) (idx : Nat) : Series :=
  if mode = "missing" then setVal acc idx m none
  else if mode = "delay" then setVal acc idx m (getVal df (idx - 3) m)
  else if mode = "spoof" then
    match getVal df idx m with
    | some val => setVal acc idx m (some (val * (3 / 2 + rng.uniform m idx)))
    | none => acc
  else if mode = "noise" then
    match getVal df idx m with
    | some val =>
        setVal acc idx m
          (some (val + rng.gauss m idx * (if val ≠ 0 then |val| / 10 else 1 / 10)))
    | none => acc
  else acc

/-- `simulate_attack(df, mode, fraction)`: per metric, pick
`n_vals = int(n_rows * fraction)` day indices (none when `n_vals` is not
positive) and perturb each in the working copy; source values are read
from the input frame. -/
def simulate_attack (rng : Rng) (df : Series) (mode : String)
    (fraction : ℚ) : Series :=
  let nRows := df.length
  METRICS.foldl (fun acc m =>
    let nVals : Int := intTrunc ((nRows : ℚ) * fraction)
    let indices : List Nat := if 0 < nVals then rng.sample m else []
    indices.foldl (applyAttack df rng mode m) acc) df

/-- The mode strings accepted by the `SimulationRequest` schema pattern
`^(missing|delay|spoof|noise)$`. -/
def validModes : List String := ["missing", "delay", "spoof", "noise"]

/-- The validated payload of a `/simulate` request (`schemas.py`). -/
structure SimulationRequest where
  user_id : String
  mode : String
  fraction : ℚ
deriving DecidableEq, Repr

/-- The pydantic validation of `SimulationRequest`: the mode must match
`^(missing|delay|spoof|noise)$` and the fraction must lie in `[0,1]`;
anything else is rejected with a validation error before the engine is
invoked. -/
def parseSimulationRequest (user_id mode : String) (fraction : ℚ) :
    Except String SimulationRequest :=
  if mode ∉ validModes then
    Except.error "mode must match pattern ^(missing|delay|spoof|noise)$"
  else if fraction < 0 then
    Except.error "fraction must be greater than or equal to 0"
  else if 1 < fraction then
    Except.error "fraction must be less than or equal to 1"
  else Except.ok { user_id := user_id, mode := mode, fraction := fraction }

/-- The per-metric mean over non-missing values (`df[m].dropna().mean()`),
`0` when the metric has no observations: the raw (pre-normalization)
embedding vector of `_compute_embedding`.  It is always rational. -/
def seriesMeanQ (df : Series) (m : Metric) : ℚ :=
  let xs := (column df m).filterMap id
  if xs.isEmpty then 0 else xs.sum / (xs.length : ℚ)

/-- `np.linalg.norm(vec)`: the Euclidean norm of a metric-indexed vector.
The square root forces this component into ℝ; the IEEE arithmetic of the
source is idealized as real arithmetic. -/
noncomputable def embNorm (u : Metric → ℝ) : ℝ :=
  Real.sqrt ((METRICS.map (fun m => u m ^ 2)).sum)

/-- `_compute_embedding(df)`: the mean vector normalized by its Euclidean
norm plus `1e-8`. -/
noncomputable def compute_embedding (df : Series) : Metric → ℝ :=
  fun m =>
    (seriesMeanQ df m : ℝ) /
      (embNorm (fun o => (seriesMeanQ df o : ℝ)) + 1 / 100000000)

/-- `np.dot` of two metric-indexed vectors. -/
noncomputable def dotEmb (u g : Metric → ℝ) : ℝ :=
  (METRICS.map (fun m => u m * g m)).sum

/-- `compute_federated_trust_score(user_df, global_df)`: cosine similarity
of the two embeddings (with `1e-8` added to the denominator), mapped by
`(sim + 1) / 2` and clamped into `[0,1]`. -/
noncomputable def compute_federated_trust_score (userDf globalDf : Series) :
    ℝ :=
  let u := compute_embedding userDf
  let g := compute_embedding globalDf
  let sim := dotEmb u g / (embNorm u * embNorm g + 1 / 100000000)
  max 0 (min ((sim + 1) / 2) 1)

section SanityChecks

attribute [local semireducible] Rat.add Rat.sub Rat.mul Rat.inv
  Rat.ofScientific

def rec0 : Record :=
  { user_id := "u", date := 0, sleep_hours := some 7, resting_hr := some 60,
    hrv := some 50, steps := some 8000, calories := some 2000,
    weight := some 70 }

example : medianQ [3, 1, 2] = 2 := by decide
example : medianQ [4, 1, 2, 3] = 5 / 2 := by decide
example : madFloored [1, 1, 1] = madEps := by decide
example : madFloored [1, 2, 9] = 1 := by decide
example : intTrunc (-5 / 2) = -2 := by decide
example :
    build_robust_baseline [rec0] 14 Metric.sleep_hours 0 = (none, none) := by
  decide

def recMiss : Record :=
  { user_id := "u", date := 1, sleep_hours := none, resting_hr := some 60,
    hrv := some 50, steps := some 8000, calories := some 2000,
    weight := some 70 }

example :
    trustEntryForRow zeroWeights [recMiss] 0 recMiss Metric.sleep_hours =
      { metric := Metric.sleep_hours, date := 1, score := 0,
        drivers := ["missing"] } := by decide

example :
    (trustEntryForRow zeroWeights [recMiss] 0 recMiss Metric.resting_hr).score
      = 0 := by decide

example :
    (trustEntryForRow zeroWeights [recMiss] 0 recMiss Metric.resting_hr).drivers
      = [crossSignalDriver] := by decide

example :
    (compute_trust_scores zeroWeights [recMiss]).length = 6 := by decide

end SanityChecks

/-! ### Helper lemmas -/

theorem mem_METRICS (m : Metric) : m ∈ METRICS := by
  cases m <;> simp [METRICS]

/-- The clamp `max 0 (1 - min x 1)` lands in `[0,1]` for `0 ≤ x`. -/
theorem clamp_mem_unit {x : ℚ} (hx : 0 ≤ x) :
    0 ≤ max 0 (1 - min x 1) ∧ max 0 (1 - min x 1) ≤ 1 := by
  constructor
  · exact le_max_left 0 _
  · have h1 : 0 ≤ min x 1 := le_min hx (by norm_num)
    have h2 : 1 - min x 1 ≤ 1 := by linarith
    exact max_le (by norm_num) h2

theorem distScore_mem_unit (df : Series) (i : Nat) (m : Metric) (val : ℚ) :
    0 ≤ distScore df i m val ∧ distScore df i m val ≤ 1 := by
  unfold distScore
  exact clamp_mem_unit (by positivity)

theorem madEps_pos : (0 : ℚ) < madEps := by norm_num [madEps]

theorem madFloored_ge (xs : List ℚ) : madEps ≤ madFloored xs := by
  unfold madFloored
  split
  · exact le_refl _
  · simp only
    split
    · next h => exact le_of_lt h
    · exact le_refl _

theorem overallMad_pos (df : Series) (m : Metric) : 0 < overallMad df m :=
  lt_of_lt_of_le madEps_pos (madFloored_ge _)

theorem resScore_mem_unit (w : PredictorWeights) (df : Series) (row : Record)
    (m : Metric) (val : ℚ) :
    0 ≤ resScore w df row m val ∧ resScore w df row m val ≤ 1 := by
  unfold resScore
  refine clamp_mem_unit (div_nonneg (abs_nonneg _) ?_)
  have := overallMad_pos df m
  linarith

theorem trustEntryForRow_score_mem_unit (w : PredictorWeights) (df : Series)
    (i : Nat) (row : Record) (m : Metric) :
    0 ≤ (trustEntryForRow w df i row m).score ∧
      (trustEntryForRow w df i row m).score ≤ 1 := by
  unfold trustEntryForRow
  cases h : row.get m with
  | none => simp
  | some val =>
    simp only
    obtain ⟨hd0, hd1⟩ := distScore_mem_unit df i m val
    obtain ⟨hr0, hr1⟩ := resScore_mem_unit w df row m val
    exact ⟨mul_nonneg hd0 hr0, mul_le_one₀ hd1 hr0 hr1⟩

theorem trustEntriesAux_mem_unit (w : PredictorWeights) (df : Series) :
    ∀ (rest : List Record) (i : Nat) (e : TrustEntry),
      e ∈ trustEntriesAux w df i rest → 0 ≤ e.score ∧ e.score ≤ 1 := by
  intro rest
  induction rest with
  | nil => intro i e h; simp [trustEntriesAux] at h
  | cons row rest ih =>
    intro i e h
    simp only [trustEntriesAux, List.mem_append, List.mem_map] at h
    rcases h with ⟨m, _, rfl⟩ | h
    · exact trustEntryForRow_score_mem_unit w df i row m
    · exact ih (i + 1) e h

/-- Membership of a per-row, per-metric entry in the flat list. -/
theorem trustEntryForRow_mem_aux (w : PredictorWeights) (df : Series) :
    ∀ (rest : List Record) (k i : Nat) (row : Record) (m : Metric),
      rest.get? k = some row →
      trustEntryForRow w df (i + k) row m ∈ trustEntriesAux w df i rest := by
  intro rest
  induction rest with
  | nil => intro k i row m h; simp at h
  | cons r rest ih =>
    intro k i row m h
    cases k with
    | zero =>
      simp only [List.get?] at h
      cases h
      simp only [trustEntriesAux, List.mem_append, List.mem_map]
      exact Or.inl ⟨m, mem_METRICS m, rfl⟩
    | succ k =>
      simp only [List.get?] at h
      have := ih k (i + 1) row m h
      simpa [trustEntriesAux, Nat.add_assoc, Nat.add_comm 1 k] using
        Or.inr this

theorem trustEntryForRow_mem (w : PredictorWeights) (df : Series) (i : Nat)
    (row : Record) (m : Metric) (h : df.get? i = some row) :
    trustEntryForRow w df i row m ∈ compute_trust_scores w df := by
  have := trustEntryForRow_mem_aux w df df i 0 row m h
  simpa [compute_trust_scores] using this

/-! ### C1 -/

/-- C1: for every input series (and any fitted predictor weights), every
entry in the flat trust list returned by `compute_trust_scores` has a score
in the closed interval `[0,1]`. -/
theorem C1_trust_scores_in_unit_interval (w : PredictorWeights) (df : Series)
    (e : TrustEntry) (h : e ∈ compute_trust_scores w df) :
    0 ≤ e.score ∧ e.score ≤ 1 :=
  trustEntriesAux_mem_unit w df df 0 e h

section C1Witness

attribute [local semireducible] Rat.add Rat.sub Rat.mul Rat.inv
  Rat.ofScientific

/-- Witness for C1 at a concrete one-record series. -/
theorem C1_trust_scores_in_unit_interval_witness :
    ({ metric := Metric.sleep_hours, date := 1, score := 0,
       drivers := ["missing"] } : TrustEntry) ∈
        compute_trust_scores zeroWeights [recMiss] ∧
    (0 ≤ ({ metric := Metric.sleep_hours, date := 1, score := 0,
            drivers := ["missing"] } : TrustEntry).score ∧
      ({ metric := Metric.sleep_hours, date := 1, score := 0,
         drivers := ["missing"] } : TrustEntry).score ≤ 1) :=
  ⟨by decide,
   C1_trust_scores_in_unit_interval zeroWeights [recMiss] _ (by decide)⟩

end C1Witness

/-! ### C2 -/

/-- C2: a missing value forces the trust entry for that (metric, day) to
score exactly `0` with drivers exactly `["missing"]` (so neither the
distribution-shift nor the cross-signal driver can appear), and that entry
is the one `compute_trust_scores` emits for the (metric, day). -/
theorem C2_missing_forces_zero_score (w : PredictorWeights) (df : Series)
    (i : Nat) (row : Record) (m : Metric) (h1 : df.get? i = some row)
    (h2 : row.get m = none) :
    trustEntryForRow w df i row m =
      { metric := m, date := row.date, score := 0, drivers := ["missing"] } ∧
    trustEntryForRow w df i row m ∈ compute_trust_scores w df := by
  constructor
  · unfold trustEntryForRow
    rw [h2]
  · exact trustEntryForRow_mem w df i row m h1

section C2Witness

attribute [local semireducible] Rat.add Rat.sub Rat.mul Rat.inv
  Rat.ofScientific

/-- Witness for C2 at a concrete one-record series with a missing metric. -/
theorem C2_missing_forces_zero_score_witness :
    [recMiss].get? 0 = some recMiss ∧
    recMiss.get Metric.sleep_hours = none ∧
    (trustEntryForRow zeroWeights [recMiss] 0 recMiss Metric.sleep_hours =
      { metric := Metric.sleep_hours, date := recMiss.date, score := 0,
        drivers := ["missing"] } ∧
     trustEntryForRow zeroWeights [recMiss] 0 recMiss Metric.sleep_hours ∈
       compute_trust_scores zeroWeights [recMiss]) :=
  ⟨by decide, by decide,
   C2_missing_forces_zero_score zeroWeights [recMiss] 0 recMiss
     Metric.sleep_hours (by decide) (by decide)⟩

end C2Witness

/-! ### C3 -/

/-- C3: the baseline pair `build_robust_baseline` attaches at row `d`
depends only on rows strictly before `d`: any two series agreeing on the
first `d` rows (so any replacement of values at row `d` or later) get the
same baseline pair at row `d`, for every window and metric. -/
theorem C3_baseline_no_lookahead (df df' : Series) (window d : Nat)
    (m : Metric) (h : df.take d = df'.take d) :
    build_robust_baseline df window m d = build_robust_baseline df' window m d := by
  have hcol : (column df m).take d = (column df' m).take d := by
    unfold column
    rw [← List.map_take, ← List.map_take, h]
  unfold build_robust_baseline
  cases d with
  | zero => simp [baselineMedian, baselineMad]
  | succ j =>
    have hwin : rollingWindow window (column df m) j =
        rollingWindow window (column df' m) j := by
      unfold rollingWindow
      rw [hcol]
    simp only [baselineMedian, baselineMad]
    unfold rollingMedian rollingMad
    rw [hwin]

section C3Witness

attribute [local semireducible] Rat.add Rat.sub Rat.mul Rat.inv
  Rat.ofScientific

def recAlt : Record := { rec0 with date := 1, sleep_hours := some 100 }

def recAlt2 : Record := { rec0 with date := 1, sleep_hours := some 5 }

/-- Witness for C3: two concrete series differing only at row `1` have the
same baseline pair at row `1`. -/
theorem C3_baseline_no_lookahead_witness :
    ([rec0, recAlt] : Series).take 1 = ([rec0, recAlt2] : Series).take 1 ∧
    build_robust_baseline [rec0, recAlt] 14 Metric.sleep_hours 1 =
      build_robust_baseline [rec0, recAlt2] 14 Metric.sleep_hours 1 :=
  ⟨by decide,
   C3_baseline_no_lookahead [rec0, recAlt] [rec0, recAlt2] 14 1
     Metric.sleep_hours (by decide)⟩

end C3Witness

/-! ### C4 -/

/-- C4: every present MAD value the engine computes is at least
`madEps = 1e-6`: the rolling `{m}_mad` baseline values (any window) and
the whole-series MAD used to normalize cross-signal residuals. -/
theorem C4_mad_values_ge_eps (df : Series) (m : Metric) (window i : Nat)
    (v : ℚ) (h : baselineMad window (column df m) i = some v) :
    madEps ≤ v ∧ madEps ≤ overallMad df m := by
  refine ⟨?_, madFloored_ge _⟩
  cases i with
  | zero => simp [baselineMad] at h
  | succ j =>
    simp only [baselineMad, rollingMad] at h
    split at h
    · rw [Option.some_inj] at h
      subst h
      split
      · exact le_refl _
      · exact madFloored_ge _
    · exact absurd h (by simp)

section C4Witness

attribute [local semireducible] Rat.add Rat.sub Rat.mul Rat.inv
  Rat.ofScientific

def dfEight : Series := [rec0, rec0, rec0, rec0, rec0, rec0, rec0, rec0]

/-- Witness for C4: a concrete series long enough for the rolling MAD to be
present (and hit the floor exactly). -/
theorem C4_mad_values_ge_eps_witness :
    baselineMad 14 (column dfEight Metric.sleep_hours) 7 = some madEps ∧
    (madEps ≤ madEps ∧ madEps ≤ overallMad dfEight Metric.sleep_hours) :=
  ⟨by decide,
   C4_mad_values_ge_eps dfEight Metric.sleep_hours 14 7 madEps (by decide)⟩

end C4Witness

/-! ### Fold helpers for the attack simulator -/

theorem foldl_of_fixed {α β : Type _} (f : α → β → α)
    (hf : ∀ a b, f a b = a) : ∀ (l : List β) (a : α), l.foldl f a = a := by
  intro l
  induction l with
  | nil => intro a; rfl
  | cons b l ih => intro a; rw [List.foldl_cons, hf]; exact ih a

theorem applyAttack_invalid (df : Series) (rng : Rng) (mode : String)
    (m : Metric) (h : mode ∉ validModes) :
    ∀ (acc : Series) (idx : Nat), applyAttack df rng mode m acc idx = acc := by
  intro acc idx
  have h1 : mode ≠ "missing" := by rintro rfl; exact h (by decide)
  have h2 : mode ≠ "delay" := by rintro rfl; exact h (by decide)
  have h3 : mode ≠ "spoof" := by rintro rfl; exact h (by decide)
  have h4 : mode ≠ "noise" := by rintro rfl; exact h (by decide)
  unfold applyAttack
  rw [if_neg h1, if_neg h2, if_neg h3, if_neg h4]

/-! ### C5 -/

section C5Counterexample

attribute [local semireducible] Rat.add Rat.sub Rat.mul Rat.inv
  Rat.ofScientific

def rngCx : Rng :=
  { sample := fun _ => [0], uniform := fun _ _ => 0, gauss := fun _ _ => 0 }

def dfTwo : Series := [rec0, recMiss]

/-- Counterexample to C5 as stated: for the unrecognized mode `"bogus"`
(and a positive fraction, so indices are actually drawn), the engine-level
`simulate_attack` raises no error and returns the series unchanged — a
silent no-op. -/
theorem C5_counterexample :
    "bogus" ∉ validModes ∧
    simulate_attack rngCx dfTwo "bogus" (1 / 2) = dfTwo := by
  exact ⟨by decide, by decide⟩

end C5Counterexample

/-- C5 (amended): an invalid mode string is rejected explicitly, but at
the API boundary: `SimulationRequest` validation fails for every mode
outside `{missing, delay, spoof, noise}`, while the engine-level
`simulate_attack` itself treats an unrecognized mode as a silent no-op and
returns the series unchanged. -/
theorem C5_invalid_mode_rejected_at_boundary (u mode : String) (f : ℚ)
    (rng : Rng) (df : Series) (h : mode ∉ validModes) :
    (∃ msg, parseSimulationRequest u mode f = Except.error msg) ∧
    simulate_attack rng df mode f = df := by
  constructor
  · unfold parseSimulationRequest
    rw [if_pos h]
    exact ⟨_, rfl⟩
  · unfold simulate_attack
    apply foldl_of_fixed
    intro acc m
    exact foldl_of_fixed _ (applyAttack_invalid df rng mode m h) _ acc

section C5Witness

attribute [local semireducible] Rat.add Rat.sub Rat.mul Rat.inv
  Rat.ofScientific

/-- Witness for C5 at the concrete mode `"bogus"`. -/
theorem C5_invalid_mode_rejected_at_boundary_witness :
    "bogus" ∉ validModes ∧
    ((∃ msg, parseSimulationRequest "u" "bogus" (1 / 2) = Except.error msg) ∧
      simulate_attack rngCx dfTwo "bogus" (1 / 2) = dfTwo) :=
  ⟨by decide,
   C5_invalid_mode_rejected_at_boundary "u" "bogus" (1 / 2) rngCx dfTwo
     (by decide)⟩

end C5Witness

/-! ### C6 -/

/-- The metrics included in a day's z-score set: value, rolling median and
rolling MAD all present. -/
def includedMetrics (df : Series) (i : Nat) (row : Record) : List Metric :=
  METRICS.filter (fun m =>
    (row.get m).isSome && (baselineMedian 14 (column df m) i).isSome &&
      (baselineMad 14 (column df m) i).isSome)

theorem dayZ_isSome (df : Series) (i : Nat) (row : Record) (m : Metric) :
    (dayZ df i row m).isSome =
      ((row.get m).isSome && (baselineMedian 14 (column df m) i).isSome &&
        (baselineMad 14 (column df m) i).isSome) := by
  cases h1 : row.get m <;>
    cases h2 : baselineMedian 14 (column df m) i <;>
      cases h3 : baselineMad 14 (column df m) i <;>
        simp [dayZ, h1, h2, h3]

theorem filterMap_eq_map_filter {α β : Type _} (f : α → Option β) (d : β) :
    ∀ l : List α,
      l.filterMap f =
        (l.filter (fun a => (f a).isSome)).map (fun a => (f a).getD d) := by
  intro l
  induction l with
  | nil => rfl
  | cons a l ih =>
    cases h : f a with
    | none => simp [List.filterMap_cons, List.filter_cons, h, ih]
    | some b => simp [List.filterMap_cons, List.filter_cons, h, ih]

theorem dayZList_eq_included (df : Series) (i : Nat) (row : Record) :
    dayZList df i row =
      (includedMetrics df i row).map (fun m => (dayZ df i row m).getD 0) := by
  unfold dayZList includedMetrics
  rw [filterMap_eq_map_filter (dayZ df i row) 0]
  congr 1
  apply List.filter_congr
  intro m _
  exact dayZ_isSome df i row m

theorem anomaliesAux_get? (df : Series) :
    ∀ (rest : List Record) (k i : Nat) (row : Record),
      rest.get? k = some row →
      (anomaliesAux df i rest).get? k =
        some (anomalyResultForRow df (i + k) row) := by
  intro rest
  induction rest with
  | nil => intro k i row h; simp at h
  | cons r rest ih =>
    intro k i row h
    cases k with
    | zero =>
      simp only [List.get?] at h
      cases h
      simp [anomaliesAux]
    | succ k =>
      simp only [List.get?] at h
      have := ih k (i + 1) row h
      simpa [anomaliesAux, Nat.add_assoc, Nat.add_comm 1 k] using this

/-- C6: for each day, a metric enters the day's z-score set exactly when
its value, rolling median and rolling MAD are all present; the day's score
is `mean(|z|) + 0.25 * max(|z|)` over the included metrics (`0` when none
qualifies); and `is_anomaly` holds exactly when the score is at least
`1.5`. -/
theorem C6_anomaly_score_structure (df : Series) (i : Nat) (row : Record)
    (h : df.get? i = some row) :
    (compute_anomalies df).get? i = some (anomalyResultForRow df i row) ∧
    (∀ m : Metric,
      m ∈ includedMetrics df i row ↔
        ((∃ val, row.get m = some val) ∧
         (∃ med, baselineMedian 14 (column df m) i = some med) ∧
         (∃ mad, baselineMad 14 (column df m) i = some mad))) ∧
    (anomalyResultForRow df i row).anomaly_score =
      (if includedMetrics df i row = [] then 0
       else
         ((includedMetrics df i row).map
             (fun m => |(dayZ df i row m).getD 0|)).sum /
           (((includedMetrics df i row).map
               (fun m => |(dayZ df i row m).getD 0|)).length : ℚ) +
         1 / 4 *
           listMax
             ((includedMetrics df i row).map
               (fun m => |(dayZ df i row m).getD 0|))) ∧
    ((anomalyResultForRow df i row).is_anomaly = true ↔
      3 / 2 ≤ (anomalyResultForRow df i row).anomaly_score) := by
  refine ⟨?_, ?_, ?_, ?_⟩
  · have := anomaliesAux_get? df df i 0 row h
    simpa [compute_anomalies] using this
  · intro m
    simp [includedMetrics, List.mem_filter, mem_METRICS m,
      Option.isSome_iff_exists, and_assoc]
  · simp only [anomalyResultForRow, dayZList_eq_included, List.map_map]
    rcases eq_or_ne (includedMetrics df i row) [] with hnil | hnil
    · simp [hnil]
    · simp [hnil, List.isEmpty_iff, Function.comp_def]
  · simp [anomalyResultForRow, decide_eq_true_eq]

section C6Witness

attribute [local semireducible] Rat.add Rat.sub Rat.mul Rat.inv
  Rat.ofScientific

/-- Witness for C6 at a concrete one-record series. -/
theorem C6_anomaly_score_structure_witness :
    ([rec0] : Series).get? 0 = some rec0 ∧
    ((compute_anomalies [rec0]).get? 0 =
        some (anomalyResultForRow [rec0] 0 rec0) ∧
      (∀ m : Metric,
        m ∈ includedMetrics [rec0] 0 rec0 ↔
          ((∃ val, rec0.get m = some val) ∧
           (∃ med, baselineMedian 14 (column [rec0] m) 0 = some med) ∧
           (∃ mad, baselineMad 14 (column [rec0] m) 0 = some mad))) ∧
      (anomalyResultForRow [rec0] 0 rec0).anomaly_score =
        (if includedMetrics [rec0] 0 rec0 = [] then 0
         else
           ((includedMetrics [rec0] 0 rec0).map
               (fun m => |(dayZ [rec0] 0 rec0 m).getD 0|)).sum /
             (((includedMetrics [rec0] 0 rec0).map
                 (fun m => |(dayZ [rec0] 0 rec0 m).getD 0|)).length : ℚ) +
           1 / 4 *
             listMax
               ((includedMetrics [rec0] 0 rec0).map
                 (fun m => |(dayZ [rec0] 0 rec0 m).getD 0|))) ∧
      ((anomalyResultForRow [rec0] 0 rec0).is_anomaly = true ↔
        3 / 2 ≤ (anomalyResultForRow [rec0] 0 rec0).anomaly_score)) :=
  ⟨by decide, C6_anomaly_score_structure [rec0] 0 rec0 (by decide)⟩

end C6Witness

/-! ### C8 -/

section C8Counterexample

attribute [local semireducible] Rat.add Rat.sub Rat.mul Rat.inv
  Rat.ofScientific

def recBig : Record :=
  { user_id := "u", date := 0, sleep_hours := some 100, resting_hr := none,
    hrv := none, steps := none, calories := none, weight := none }

/-- Counterexample to C8 as stated: at a concrete input whose cross-signal
factor is below `0.6`, the drivers list does not contain the ASCII-hyphen
string `"cross-signal deviation"` — the source appends the string with the
U+2011 non-breaking hyphen instead, so the claimed equivalence fails. -/
theorem C8_counterexample :
    ¬ ((crossSignalDriverAscii ∈
        (trustEntryForRow zeroWeights [recBig] 0 recBig
          Metric.sleep_hours).drivers) ↔
      resScore zeroWeights [recBig] recBig Metric.sleep_hours 100 < 3 / 5) := by
  decide

end C8Counterexample

/-- C8 (amended): for every non-missing value, the drivers list contains
the source's cross-signal driver string (spelled with a U+2011 non-breaking
hyphen, not an ASCII hyphen) if and only if
`res_score = clamp(1 - residual/(3*overall_mad), [0,1]) < 0.6`, where
`overall_mad` is the metric's whole-series MAD computed once. -/
theorem C8_cross_signal_driver_iff (w : PredictorWeights) (df : Series)
    (i : Nat) (row : Record) (m : Metric) (val : ℚ)
    (h1 : df.get? i = some row) (h2 : row.get m = some val) :
    ((crossSignalDriver ∈ (trustEntryForRow w df i row m).drivers) ↔
      resScore w df row m val < 3 / 5) ∧
    trustEntryForRow w df i row m ∈ compute_trust_scores w df := by
  refine ⟨?_, trustEntryForRow_mem w df i row m h1⟩
  unfold trustEntryForRow
  rw [h2]
  simp only
  by_cases hA : distScore df i m val < 3 / 5 <;>
    by_cases hB : resScore w df row m val < 3 / 5 <;>
      simp [hA, hB, distShiftDriver, crossSignalDriver]

section C8Witness

attribute [local semireducible] Rat.add Rat.sub Rat.mul Rat.inv
  Rat.ofScientific

/-- Witness for C8 (amended) at the same concrete input as the
counterexample: the U+2011 driver string is present and the factor is
below `0.6`. -/
theorem C8_cross_signal_driver_iff_witness :
    ([recBig] : Series).get? 0 = some recBig ∧
    recBig.get Metric.sleep_hours = some 100 ∧
    (((crossSignalDriver ∈
        (trustEntryForRow zeroWeights [recBig] 0 recBig
          Metric.sleep_hours).drivers) ↔
      resScore zeroWeights [recBig] recBig Metric.sleep_hours 100 < 3 / 5) ∧
      trustEntryForRow zeroWeights [recBig] 0 recBig Metric.sleep_hours ∈
        compute_trust_scores zeroWeights [recBig]) :=
  ⟨by decide, by decide,
   C8_cross_signal_driver_iff zeroWeights [recBig] 0 recBig
     Metric.sleep_hours 100 (by decide) (by decide)⟩

end C8Witness

/-! ### C9 -/

/-! ### Federated-trust helpers -/

theorem sum_sq_nonneg_metric (v : Metric → ℝ) :
    0 ≤ (METRICS.map (fun m => v m ^ 2)).sum := by
  simp only [METRICS, List.map_cons, List.map_nil, List.sum_cons,
    List.sum_nil]
  positivity

theorem sum_sq_pos_metric (v : Metric → ℝ) (h : ∃ m, v m ≠ 0) :
    0 < (METRICS.map (fun m => v m ^ 2)).sum := by
  obtain ⟨m, hm⟩ := h
  have h2 : 0 < v m ^ 2 := by
    calc (0 : ℝ) < |v m| ^ 2 := by
          have := abs_pos.mpr hm
          positivity
    _ = v m ^ 2 := sq_abs _
  simp only [METRICS, List.map_cons, List.map_nil, List.sum_cons,
    List.sum_nil]
  cases m <;>
    nlinarith [sq_nonneg (v Metric.sleep_hours),
      sq_nonneg (v Metric.resting_hr), sq_nonneg (v Metric.hrv),
      sq_nonneg (v Metric.steps), sq_nonneg (v Metric.calories),
      sq_nonneg (v Metric.weight)]

theorem embNorm_nonneg (u : Metric → ℝ) : 0 ≤ embNorm u :=
  Real.sqrt_nonneg _

theorem embNorm_pos (v : Metric → ℝ) (h : ∃ m, v m ≠ 0) : 0 < embNorm v :=
  Real.sqrt_pos.mpr (sum_sq_pos_metric v h)

theorem embNorm_mul_self (u : Metric → ℝ) :
    embNorm u * embNorm u = (METRICS.map (fun m => u m ^ 2)).sum :=
  Real.mul_self_sqrt (sum_sq_nonneg_metric u)

theorem dotEmb_div_self (v : Metric → ℝ) (c : ℝ) (hc : c ≠ 0) :
    dotEmb (fun m => v m / c) (fun m => v m / c) =
      (METRICS.map (fun m => v m ^ 2)).sum / c ^ 2 := by
  simp only [dotEmb, METRICS, List.map_cons, List.map_nil, List.sum_cons,
    List.sum_nil]
  field_simp
  ring

theorem dotEmb_div_neg (v : Metric → ℝ) (c : ℝ) (hc : c ≠ 0) :
    dotEmb (fun m => v m / c) (fun m => -v m / c) =
      -((METRICS.map (fun m => v m ^ 2)).sum / c ^ 2) := by
  simp only [dotEmb, METRICS, List.map_cons, List.map_nil, List.sum_cons,
    List.sum_nil]
  field_simp
  ring

theorem map_sq_div (v : Metric → ℝ) (c : ℝ) (hc : c ≠ 0) :
    (METRICS.map (fun m => (v m / c) ^ 2)).sum =
      (METRICS.map (fun m => v m ^ 2)).sum / c ^ 2 := by
  simp only [METRICS, List.map_cons, List.map_nil, List.sum_cons,
    List.sum_nil]
  field_simp

theorem embNorm_neg_div (v : Metric → ℝ) (c : ℝ) :
    embNorm (fun m => -v m / c) = embNorm (fun m => v m / c) := by
  unfold embNorm
  congr 1
  simp only [METRICS, List.map_cons, List.map_nil, List.sum_cons,
    List.sum_nil]
  ring

/-- Core bounds for the identical-embeddings case: the two `1e-8`
regularization terms keep the similarity strictly below `1`, so the trust
lands strictly between `1/2` and `1`. -/
theorem federated_identical_bounds (a b : Series)
    (hEq : ∀ m, seriesMeanQ a m = seriesMeanQ b m)
    (hNz : ∃ m, seriesMeanQ a m ≠ 0) :
    1 / 2 < compute_federated_trust_score a b ∧
      compute_federated_trust_score a b < 1 := by
  have hNzR : ∃ m, ((seriesMeanQ a m : ℚ) : ℝ) ≠ 0 := by
    obtain ⟨m, hm⟩ := hNz
    exact ⟨m, by exact_mod_cast hm⟩
  set v : Metric → ℝ := fun m => ((seriesMeanQ a m : ℚ) : ℝ) with hv
  set S : ℝ := (METRICS.map (fun m => v m ^ 2)).sum with hSdef
  have hS : 0 < S := sum_sq_pos_metric v hNzR
  have hNn : 0 ≤ embNorm v := embNorm_nonneg v
  have hc : (0 : ℝ) < embNorm v + 1 / 100000000 := by linarith
  have hua : compute_embedding a = fun m => v m / (embNorm v + 1 / 100000000) := by
    funext m
    simp only [compute_embedding, hv]
  have hub : compute_embedding b = fun m => v m / (embNorm v + 1 / 100000000) := by
    funext m
    have h1 : (fun o => ((seriesMeanQ b o : ℚ) : ℝ)) = v := by
      funext o
      simp only [hv]
      exact_mod_cast (hEq o).symm
    have h2 : ((seriesMeanQ b m : ℚ) : ℝ) = v m := by
      simp only [hv]
      exact_mod_cast (hEq m).symm
    simp only [compute_embedding, h1, h2]
  have hdot :
      dotEmb (compute_embedding a) (compute_embedding b) =
        S / (embNorm v + 1 / 100000000) ^ 2 := by
    rw [hua, hub, dotEmb_div_self v _ hc.ne', hSdef]
  have hnp :
      embNorm (compute_embedding a) * embNorm (compute_embedding b) =
        S / (embNorm v + 1 / 100000000) ^ 2 := by
    rw [hua, hub, embNorm_mul_self, map_sq_div v _ hc.ne', hSdef]
  have heval :
      compute_federated_trust_score a b =
        max 0 (min ((S / (embNorm v + 1 / 100000000) ^ 2 /
          (S / (embNorm v + 1 / 100000000) ^ 2 + 1 / 100000000) + 1) / 2) 1) := by
    simp only [compute_federated_trust_score]
    rw [hdot, hnp]
  set A : ℝ := S / (embNorm v + 1 / 100000000) ^ 2 with hA
  have hApos : 0 < A := by
    rw [hA]
    exact div_pos hS (by positivity)
  have hsim0 : 0 < A / (A + 1 / 100000000) := div_pos hApos (by linarith)
  have hsim1 : A / (A + 1 / 100000000) < 1 := by
    rw [div_lt_one (by linarith)]
    linarith
  have hmid0 : 0 ≤ (A / (A + 1 / 100000000) + 1) / 2 := by linarith
  have hmid1 : (A / (A + 1 / 100000000) + 1) / 2 ≤ 1 := by linarith
  rw [heval, min_eq_left hmid1, max_eq_right hmid0]
  constructor <;> linarith

/-- Core bounds for the exactly-opposite-embeddings case: the similarity
stays strictly above `-1`, so the trust lands strictly between `0` and
`1/2`. -/
theorem federated_opposite_bounds (a b : Series)
    (hOpp : ∀ m, seriesMeanQ b m = -seriesMeanQ a m)
    (hNz : ∃ m, seriesMeanQ a m ≠ 0) :
    0 < compute_federated_trust_score a b ∧
      compute_federated_trust_score a b < 1 / 2 := by
  have hNzR : ∃ m, ((seriesMeanQ a m : ℚ) : ℝ) ≠ 0 := by
    obtain ⟨m, hm⟩ := hNz
    exact ⟨m, by exact_mod_cast hm⟩
  set v : Metric → ℝ := fun m => ((seriesMeanQ a m : ℚ) : ℝ) with hv
  set S : ℝ := (METRICS.map (fun m => v m ^ 2)).sum with hSdef
  have hS : 0 < S := sum_sq_pos_metric v hNzR
  have hNn : 0 ≤ embNorm v := embNorm_nonneg v
  have hc : (0 : ℝ) < embNorm v + 1 / 100000000 := by linarith
  have hua : compute_embedding a = fun m => v m / (embNorm v + 1 / 100000000) := by
    funext m
    simp only [compute_embedding, hv]
  have hub : compute_embedding b =
      fun m => -v m / (embNorm v + 1 / 100000000) := by
    funext m
    have h1 : (fun o => ((seriesMeanQ b o : ℚ) : ℝ)) = fun o => -v o := by
      funext o
      simp only [hv]
      push_cast [hOpp o]
      ring
    have h2 : ((seriesMeanQ b m : ℚ) : ℝ) = -v m := by
      simp only [hv]
      push_cast [hOpp m]
      ring
    have h3 : embNorm (fun o => -v o) = embNorm v := by
      unfold embNorm
      congr 1
      simp only [METRICS, List.map_cons, List.map_nil, List.sum_cons,
        List.sum_nil]
      ring
    simp only [compute_embedding, h1, h2, h3]
  have hdot :
      dotEmb (compute_embedding a) (compute_embedding b) =
        -(S / (embNorm v + 1 / 100000000) ^ 2) := by
    rw [hua, hub, dotEmb_div_neg v _ hc.ne', hSdef]
  have hnp :
      embNorm (compute_embedding a) * embNorm (compute_embedding b) =
        S / (embNorm v + 1 / 100000000) ^ 2 := by
    rw [hua, hub, embNorm_neg_div, embNorm_mul_self, map_sq_div v _ hc.ne',
      hSdef]
  have heval :
      compute_federated_trust_score a b =
        max 0 (min ((-(S / (embNorm v + 1 / 100000000) ^ 2) /
          (S / (embNorm v + 1 / 100000000) ^ 2 + 1 / 100000000) + 1) / 2) 1) := by
    simp only [compute_federated_trust_score]
    rw [hdot, hnp]
  set A : ℝ := S / (embNorm v + 1 / 100000000) ^ 2 with hA
  have hApos : 0 < A := by
    rw [hA]
    exact div_pos hS (by positivity)
  have hx0 : 0 < A / (A + 1 / 100000000) := div_pos hApos (by linarith)
  have hx1 : A / (A + 1 / 100000000) < 1 := by
    rw [div_lt_one (by linarith)]
    linarith
  have hneg : -A / (A + 1 / 100000000) = -(A / (A + 1 / 100000000)) :=
    neg_div _ _
  have hmid0 : 0 ≤ (-A / (A + 1 / 100000000) + 1) / 2 := by
    rw [hneg]
    linarith
  have hmid1 : (-A / (A + 1 / 100000000) + 1) / 2 ≤ 1 := by
    rw [hneg]
    linarith
  rw [heval, min_eq_left hmid1, max_eq_right hmid0]
  rw [hneg]
  constructor <;> linarith

/-! ### C7 -/

section C7Counterexample

attribute [local semireducible] Rat.add Rat.sub Rat.mul Rat.inv
  Rat.ofScientific

def recNeg : Record :=
  { user_id := "u", date := 0, sleep_hours := some (-7),
    resting_hr := some (-60), hrv := some (-50), steps := some (-8000),
    calories := some (-2000), weight := some (-70) }

/-- Counterexample to C7 as stated: with identical non-zero embeddings the
score is not exactly `1.0`, and with exactly opposite embeddings it is not
exactly `0.0` — the `1e-8` terms keep both endpoints unattainable. -/
theorem C7_counterexample :
    compute_federated_trust_score [rec0] [rec0] ≠ 1 ∧
    compute_federated_trust_score [rec0] [recNeg] ≠ 0 :=
  ⟨(federated_identical_bounds [rec0] [rec0] (fun _ => rfl)
      ⟨Metric.sleep_hours, by decide⟩).2.ne,
   ((federated_opposite_bounds [rec0] [recNeg] (by decide)
      ⟨Metric.sleep_hours, by decide⟩).1).ne'⟩

end C7Counterexample

/-- C7 (amended): for identical non-zero per-metric-mean embeddings the
federated trust lies strictly between `1/2` and `1` (close to but not
exactly `1.0`), and for exactly opposite embeddings strictly between `0`
and `1/2` (close to but not exactly `0.0`); the `1e-8` regularization in
the embedding normalization and in the cosine denominator keeps the
endpoints unattainable. -/
theorem C7_federated_trust_endpoints (a b : Series) :
    ((∀ m, seriesMeanQ a m = seriesMeanQ b m) →
      (∃ m, seriesMeanQ a m ≠ 0) →
      1 / 2 < compute_federated_trust_score a b ∧
        compute_federated_trust_score a b < 1) ∧
    ((∀ m, seriesMeanQ b m = -seriesMeanQ a m) →
      (∃ m, seriesMeanQ a m ≠ 0) →
      0 < compute_federated_trust_score a b ∧
        compute_federated_trust_score a b < 1 / 2) :=
  ⟨federated_identical_bounds a b, federated_opposite_bounds a b⟩

section C7Witness

attribute [local semireducible] Rat.add Rat.sub Rat.mul Rat.inv
  Rat.ofScientific

/-- Witness for C7 (amended), covering both the identical and the opposite
branch at concrete one-record series. -/
theorem C7_federated_trust_endpoints_witness :
    ((∀ m, seriesMeanQ [rec0] m = seriesMeanQ [rec0] m) ∧
      (∃ m, seriesMeanQ [rec0] m ≠ 0) ∧
      (1 / 2 < compute_federated_trust_score [rec0] [rec0] ∧
        compute_federated_trust_score [rec0] [rec0] < 1)) ∧
    ((∀ m, seriesMeanQ [recNeg] m = -seriesMeanQ [rec0] m) ∧
      (∃ m, seriesMeanQ [rec0] m ≠ 0) ∧
      (0 < compute_federated_trust_score [rec0] [recNeg] ∧
        compute_federated_trust_score [rec0] [recNeg] < 1 / 2)) :=
  ⟨⟨fun _ => rfl, ⟨Metric.sleep_hours, by decide⟩,
    (C7_federated_trust_endpoints [rec0] [rec0]).1 (fun _ => rfl)
      ⟨Metric.sleep_hours, by decide⟩⟩,
   ⟨by decide, ⟨Metric.sleep_hours, by decide⟩,
    (C7_federated_trust_endpoints [rec0] [recNeg]).2 (by decide)
      ⟨Metric.sleep_hours, by decide⟩⟩⟩

end C7Witness

/-! ### C10 -/

/-- C10: `compute_federated_trust_score` is symmetric in its two series
arguments. -/
theorem C10_federated_trust_symmetric (a b : Series) :
    compute_federated_trust_score a b = compute_federated_trust_score b a := by
  simp only [compute_federated_trust_score]
  have hdot :
      dotEmb (compute_embedding a) (compute_embedding b) =
        dotEmb (compute_embedding b) (compute_embedding a) := by
    simp only [dotEmb, METRICS, List.map_cons, List.map_nil, List.sum_cons,
      List.sum_nil]
    ring
  rw [hdot,
    mul_comm (embNorm (compute_embedding a)) (embNorm (compute_embedding b))]

/-! ### C9 -/

/-- C9: `simulate_attack` with mode `"missing"` and fraction `0` is the
identity round-trip: it returns the input series unchanged, for every
random source (in this pure embedding the input itself is immutable by
construction). -/
theorem C9_simulate_missing_fraction_zero_roundtrip (rng : Rng)
    (df : Series) : simulate_attack rng df "missing" 0 = df := by
  unfold simulate_attack
  have h0 : intTrunc ((df.length : ℚ) * 0) = 0 := by
    norm_num [intTrunc]
  apply foldl_of_fixed
  intro acc m
  simp only [h0, lt_self_iff_false, if_false, List.foldl_nil]
